import Mathlib

/-!
# Verification of the mousebind button-binding engine

A shallow embedding of the button-sequence parsing and grab/dispatch
engine of the `mousebind` package.  The repository ships only the package
documentation (`doc.go`); the executable definitions below are therefore
modelled from the specification's component contracts (SequenceParser,
IgnoreMaskConfig, GrabTable, BindingRegistry, Dispatcher,
ReplayCoordinator) and the package documentation, and the theorems settle
the spec's testable properties against this model.
-/

deriving instance DecidableEq for Except

/-! ## Sequence parser -/

/-- Modelled from the spec: the fixed modifier vocabulary
{shift, lock, control, mod1..mod5, button1..button5, any}
(§3 ModifierSet, §6 sequence grammar). -/
inductive ModTok where
  | shift | lock | control
  | mod1 | mod2 | mod3 | mod4 | mod5
  | button1 | button2 | button3 | button4 | button5
  | any
deriving DecidableEq, Repr

/-- Modelled from the spec: the `ParseError` taxonomy of §4.1/§7. -/
inductive ParseError where
  | UnknownModifier
  | MissingButton
  | InvalidButtonNumber
  | EmptySequence
deriving DecidableEq, Repr

/-- Modelled from the spec: a parsed `ButtonSequence` — a modifier set
(kept in parse order) plus exactly one button number (§3). -/
structure ButtonSequence where
  mods : List ModTok
  button : Nat
deriving DecidableEq, Repr

/-- Split a character list on the separator `-`, keeping empty segments
(so `"shift-"` yields a trailing empty segment). -/
def splitAux : List Char → List Char → List (List Char)
  | [], acc => [acc.reverse]
  | c :: rest, acc =>
    if c = '-' then acc.reverse :: splitAux rest []
    else splitAux rest (c :: acc)

/-- Split a sequence string's characters on `-`. -/
def splitSeq (s : List Char) : List (List Char) := splitAux s []

/-- Decimal digit value of a character, if it is a digit. -/
def digitVal (c : Char) : Option Nat :=
  if '0' ≤ c ∧ c ≤ '9' then some (c.toNat - '0'.toNat) else none

def parseNatAux : List Char → Nat → Option Nat
  | [], acc => some acc
  | c :: rest, acc =>
    match digitVal c with
    | none => none
    | some d => parseNatAux rest (acc * 10 + d)

/-- Parse a nonempty all-digit character list as a decimal number. -/
def parseNatChars (cs : List Char) : Option Nat :=
  match cs with
  | [] => none
  | _ => parseNatAux cs 0

/-- Modelled from the spec: the protocol's maximum button number; button
numbers are positive integers bounded by the protocol's maximum button
count (§3), taken here as the core protocol's byte-sized button range. -/
def maxButton : Nat := 255

/-- Canonical (lower-case) name of each modifier token (§6). -/
def modName : ModTok → List Char
  | .shift => ['s','h','i','f','t']
  | .lock => ['l','o','c','k']
  | .control => ['c','o','n','t','r','o','l']
  | .mod1 => ['m','o','d','1']
  | .mod2 => ['m','o','d','2']
  | .mod3 => ['m','o','d','3']
  | .mod4 => ['m','o','d','4']
  | .mod5 => ['m','o','d','5']
  | .button1 => ['b','u','t','t','o','n','1']
  | .button2 => ['b','u','t','t','o','n','2']
  | .button3 => ['b','u','t','t','o','n','3']
  | .button4 => ['b','u','t','t','o','n','4']
  | .button5 => ['b','u','t','t','o','n','5']
  | .any => ['a','n','y']

/-- All modifier tokens. -/
def allMods : List ModTok :=
  [.shift, .lock, .control, .mod1, .mod2, .mod3, .mod4, .mod5,
   .button1, .button2, .button3, .button4, .button5, .any]

/-- Case-insensitive lookup of a modifier segment (§4.1: names are
case-insensitive). -/
def lookupMod (seg : List Char) : Option ModTok :=
  allMods.find? (fun m => modName m = seg.map Char.toLower)

/-- Resolve every modifier segment; the first unrecognized one fails with
`UnknownModifier` (§4.1). -/
def resolveMods : List (List Char) → Except ParseError (List ModTok)
  | [] => .ok []
  | seg :: rest =>
    match lookupMod seg with
    | none => .error .UnknownModifier
    | some m =>
      match resolveMods rest with
      | .error e => .error e
      | .ok ms => .ok (m :: ms)

/-- Modelled from the spec: `parse(sequence) → ButtonSequence | ParseError`
(§4.1).  Splits on `-`; every segment but the last must resolve to a known
modifier name (case-insensitively), the last segment must be a decimal
button number in range; the four error cases are `EmptySequence` for `""`,
`UnknownModifier`, `MissingButton` for a missing trailing segment, and
`InvalidButtonNumber` for a non-numeric or out-of-range trailing segment. -/
def parse (s : String) : Except ParseError ButtonSequence :=
  if s.data = [] then .error .EmptySequence
  else
    let segs := splitSeq s.data
    let lastSeg := segs.getLastD []
    match resolveMods segs.dropLast with
    | .error e => .error e
    | .ok ms =>
      if lastSeg = [] then .error .MissingButton
      else
        match parseNatChars lastSeg with
        | none => .error .InvalidButtonNumber
        | some n =>
          if 1 ≤ n ∧ n ≤ maxButton then .ok ⟨ms, n⟩
          else .error .InvalidButtonNumber

/-- Decimal digit character for a value < 10. -/
def digitChar (n : Nat) : Char := Char.ofNat ('0'.toNat + n)

/-- Decimal digits of a positive number, most significant first; the first
argument is structural fuel (`n` itself suffices). -/
def natDigitsAux : Nat → Nat → List Char
  | 0, _ => []
  | fuel + 1, n =>
    if n = 0 then []
    else natDigitsAux fuel (n / 10) ++ [digitChar (n % 10)]

/-- Decimal representation of a number. -/
def natDigits (n : Nat) : List Char :=
  if n = 0 then ['0'] else natDigitsAux n n

/-- Join segments with the `-` separator. -/
def joinDash : List (List Char) → List Char
  | [] => []
  | [s] => s
  | s :: rest => s ++ '-' :: joinDash rest

/-- Modelled from the spec: serialization of a `ButtonSequence` back to a
sequence string (§8: re-serializing and re-parsing yields the same set). -/
def serialize (bs : ButtonSequence) : String :=
  ⟨joinDash (bs.mods.map modName ++ [natDigits bs.button])⟩

/-! ## Masks and ignore-mask configuration -/

/-- Modelled from the spec: numeric mask bit of each modifier token
(§3 CanonicalMask; the protocol's modifier-mask encoding). -/
def modMask : ModTok → Nat
  | .shift => 1
  | .lock => 2
  | .control => 4
  | .mod1 => 8
  | .mod2 => 16
  | .mod3 => 32
  | .mod4 => 64
  | .mod5 => 128
  | .button1 => 256
  | .button2 => 512
  | .button3 => 1024
  | .button4 => 2048
  | .button5 => 4096
  | .any => 32768

/-- Numeric encoding of a modifier set as a bitmask. -/
def encodeMods (ms : List ModTok) : Nat :=
  ms.foldl (fun a m => a ||| modMask m) 0

/-- The caps-lock mask bit (the `lock` modifier). -/
def capslockMask : Nat := 2

/-- The num-lock mask bit (conventionally `mod2`). -/
def numlockMask : Nat := 16

/-- Union of a list of mask bits. -/
def orAll (bits : List Nat) : Nat := bits.foldl (· ||| ·) 0

/-- Modelled from the spec: the default IgnoreMaskConfig, the caps-lock and
num-lock bits (§4.2; doc.go lines 57-67). -/
def defaultIgnore : List Nat := [numlockMask, capslockMask]

/-- Modelled from the spec: strip every bit present in the ignore
configuration from a mask (§4.5).  `m &&& c` is a bitwise subset of `m`,
so xor-ing it out clears exactly the configured bits. -/
def stripMask (cfg : List Nat) (m : Nat) : Nat := m ^^^ (m &&& orAll cfg)

/-- Masks of every subset of the ignore bits, in doc.go order: for bits
`[n, c]` this is `[0, n, c, n|||c]`. -/
def maskCombos (bits : List Nat) : List Nat :=
  bits.foldl (fun acc b => acc ++ acc.map (· ||| b)) [0]

/-- Modelled from the spec: cross-product expansion of a requested mask
with every subset of the ignore bits (§4.3; doc.go lines 57-62). -/
def expandMasks (cfg : List Nat) (m : Nat) : List Nat :=
  (maskCombos cfg).map (m ||| ·)

/-! ## Grab table -/

/-- Modelled from the spec: grab identity, (WindowID, CanonicalMask,
ButtonNumber) (§3 GrabKey). -/
structure GrabKey where
  window : Nat
  mask : Nat
  button : Nat
deriving DecidableEq, Repr

/-- Modelled from the spec: per-key grab bookkeeping, refcount plus the
issued flag, together with the expanded physical masks the entry issued
(§3 GrabEntry, §4.3 release ungrabs every previously expanded mask). -/
structure GrabEntry where
  refcount : Nat
  issued : Bool
  masks : List Nat
deriving DecidableEq, Repr

inductive GrabError where
  | AlreadyGrabbed
  | NotGrabbed
deriving DecidableEq, Repr

/-- A physical request observed by the transport. -/
inductive Op where
  | grab (window mask button : Nat)
  | ungrab (window mask button : Nat)
deriving DecidableEq, Repr

/-- The grab table: entries keyed by `GrabKey`; absent keys hold no grab. -/
def GrabTable : Type := GrabKey → Option GrabEntry

/-- The empty grab table. -/
def GrabTable.empty : GrabTable := fun _ => none

/-- Point update of the grab table. -/
def GrabTable.update (t : GrabTable) (k : GrabKey) (v : Option GrabEntry) : GrabTable :=
  fun k' => if k' = k then v else t k'

/-- Issue physical grabs for the expanded masks in order until one fails;
`ok` models the transport's answer per (window, mask, button).  Returns
whether all succeeded and the masks actually granted, in issue order. -/
def issueGrabs (ok : Nat → Nat → Nat → Bool) (w b : Nat) : List Nat → Bool × List Nat
  | [] => (true, [])
  | m :: rest =>
    if ok w m b then
      let r := issueGrabs ok w b rest
      (r.1, m :: r.2)
    else (false, [])

/-- Modelled from the spec: `GrabTable.acquire` (§4.3).  An existing entry
just gains a reference, without contacting the transport; otherwise the
requested mask is expanded over every ignore-bit subset and one physical
grab is issued per expanded mask.  On any failure the already-issued grabs
are rolled back (ungrabbed in reverse order), `AlreadyGrabbed` is returned
and no entry is created.  The second component is the transport log. -/
def GrabTable.acquire (cfg : List Nat) (ok : Nat → Nat → Nat → Bool)
    (t : GrabTable) (k : GrabKey) : Except GrabError GrabTable × List Op :=
  match t k with
  | some e => (.ok (t.update k (some ⟨e.refcount + 1, e.issued, e.masks⟩)), [])
  | none =>
    let masks := expandMasks cfg k.mask
    let r := issueGrabs ok k.window k.button masks
    if r.1 then
      (.ok (t.update k (some ⟨1, true, masks⟩)),
       r.2.map (fun m => Op.grab k.window m k.button))
    else
      (.error .AlreadyGrabbed,
       r.2.map (fun m => Op.grab k.window m k.button) ++
       r.2.reverse.map (fun m => Op.ungrab k.window m k.button))

/-- Modelled from the spec: `GrabTable.release` (§4.3).  Decrements the
refcount; at zero it ungrabs every previously expanded physical mask and
removes the entry.  Releasing an unknown key is a no-op (defensive). -/
def GrabTable.release (t : GrabTable) (k : GrabKey) : GrabTable × List Op :=
  match t k with
  | none => (t, [])
  | some e =>
    if e.refcount ≤ 1 then
      (t.update k none, e.masks.map (fun m => Op.ungrab k.window m k.button))
    else
      (t.update k (some ⟨e.refcount - 1, e.issued, e.masks⟩), [])

/-! ## Binding registry and dispatcher -/

/-- Event direction: button press or button release (§3 Binding). -/
inductive Dir where
  | press
  | release
deriving DecidableEq, Repr

/-- Modelled from the spec: a registered binding — match criteria
(window, canonical mask with ignore bits pre-stripped, button, direction),
the grab/sync flags, and an opaque handle `id` standing for the callback
(§3 Binding, §4.4). -/
structure Binding where
  id : Nat
  window : Nat
  mask : Nat
  button : Nat
  dir : Dir
  isGrab : Bool
  isSync : Bool
deriving DecidableEq, Repr

/-- Exact-match criterion of the registry (§4.4: keys are exact). -/
def bindMatches (b : Binding) (w mask button : Nat) (d : Dir) : Bool :=
  b.window = w ∧ b.mask = mask ∧ b.button = button ∧ b.dir = d

/-- Modelled from the spec: `BindingRegistry.match` — the callbacks
registered for an exact (window, canonical mask, button, direction) key,
in registration order (§4.4). -/
def matchBindings (reg : List Binding) (w mask button : Nat) (d : Dir) : List Binding :=
  reg.filter (fun b => bindMatches b w mask button d)

/-- A raw button event as reported by the event core: window, reported
modifier state, button number and direction. -/
structure Event where
  window : Nat
  state : Nat
  button : Nat
  dir : Dir
deriving DecidableEq, Repr

/-- Modelled from the spec: the Dispatcher (§4.5).  Strips the ignore bits
from the event's reported state, matches bindings on the canonical mask,
and invokes each matched callback in registration order, passing the
original (unstripped) event.  An invocation is recorded as the pair of the
callback's handle and the event it receives. -/
def dispatch (cfg : List Nat) (reg : List Binding) (ev : Event) : List (Nat × Event) :=
  (matchBindings reg ev.window (stripMask cfg ev.state) ev.button ev.dir).map
    (fun b => (b.id, ev))

/-- Whether dispatching `ev` hits a synchronous grab: some matched binding
has grab=true and sync=true (§4.6). -/
def syncGrabHit (cfg : List Nat) (reg : List Binding) (ev : Event) : Bool :=
  (matchBindings reg ev.window (stripMask cfg ev.state) ev.button ev.dir).any
    (fun b => b.isGrab && b.isSync)

/-! ## Registration engine: Connect and Detach -/

/-- Errors surfaced by `Connect` (§6 registration API). -/
inductive ConnError where
  | parseErr (e : ParseError)
  | grabErr (e : GrabError)
deriving DecidableEq, Repr

/-- The engine state: the binding registry (in registration order), the
grab table, and the next fresh handle. -/
structure Engine where
  reg : List Binding
  table : GrabTable
  nextId : Nat

/-- The initial engine state. -/
def Engine.empty : Engine := ⟨[], GrabTable.empty, 0⟩

/-- Modelled from the spec: `Connect(window, sequence, grab, sync,
direction, callback) → BindingHandle | ParseError | GrabError`
(§6, §4.3, §4.4).  Parses the sequence, strips the ignore bits out of the
encoded modifier mask to form the canonical mask, acquires the shared grab
when grab=true, and appends the binding to the registry.  The second
component is the transport log of the call. -/
def Connect (cfg : List Nat) (ok : Nat → Nat → Nat → Bool) (e : Engine)
    (w : Nat) (seq : String) (grab sync : Bool) (d : Dir) :
    Except ConnError (Engine × Nat) × List Op :=
  match parse seq with
  | .error pe => (.error (.parseErr pe), [])
  | .ok bs =>
    let mask := stripMask cfg (encodeMods bs.mods)
    let b : Binding := ⟨e.nextId, w, mask, bs.button, d, grab, sync⟩
    if grab then
      match GrabTable.acquire cfg ok e.table ⟨w, mask, bs.button⟩ with
      | (.ok t', ops) =>
        (.ok (⟨e.reg ++ [b], t', e.nextId + 1⟩, e.nextId), ops)
      | (.error ge, ops) => (.error (.grabErr ge), ops)
    else
      (.ok (⟨e.reg ++ [b], e.table, e.nextId + 1⟩, e.nextId), [])

/-- Modelled from the spec: `Detach(handle)` (§6, §4.3, §4.4).  Removes
the handle's binding from the registry and, when it held a grab, releases
its key.  A handle that is not registered is a no-op. -/
def Detach (e : Engine) (h : Nat) : Engine × List Op :=
  match e.reg.find? (fun b => b.id = h) with
  | none => (e, [])
  | some b =>
    let reg' := e.reg.filter (fun x => ¬ x.id = h)
    if b.isGrab then
      let r := GrabTable.release e.table ⟨b.window, b.mask, b.button⟩
      (⟨reg', r.1, e.nextId⟩, r.2)
    else (⟨reg', e.table, e.nextId⟩, [])

/-! ## Replay coordinator -/

/-- Modelled from the spec: the ReplayCoordinator's two states (§4.6). -/
inductive RState where
  | idle
  | awaitingReplay
deriving DecidableEq, Repr

/-- Actions observed by the ReplayCoordinator: dispatch of an event of a
synchronous grab, dispatch of any other event, and the application's
explicit AllowReplayedEvents call. -/
inductive RAct where
  | dispatchSync
  | dispatchAsync
  | allowReplayed
deriving DecidableEq, Repr

/-- Modelled from the spec: the ReplayCoordinator step relation (§4.6).
Dispatching a synchronous-grab event freezes the coordinator in
`awaitingReplay`; while frozen the server delivers no further such events,
so the only step out of `awaitingReplay` is the explicit
`allowReplayed` action, back to `idle`.  Other dispatches leave `idle`
unchanged, and resuming while `idle` is a no-op. -/
inductive RStep : RState → RAct → RState → Prop where
  | dispatchSync : RStep .idle .dispatchSync .awaitingReplay
  | dispatchAsync : RStep .idle .dispatchAsync .idle
  | allowAwaiting : RStep .awaitingReplay .allowReplayed .idle
  | allowIdle : RStep .idle .allowReplayed .idle

/-- A run of the ReplayCoordinator: a trace of actions from one state to
another. -/
inductive RRun : RState → List RAct → RState → Prop where
  | nil (s : RState) : RRun s [] s
  | cons {s s' s'' : RState} {a : RAct} {tr : List RAct} :
      RStep s a s' → RRun s' tr s'' → RRun s (a :: tr) s''

/-! ## Operation sequences on the grab table -/

/-- A logical grab-table operation, for reasoning over arbitrary
acquire/release histories. -/
inductive TOp where
  | acq (k : GrabKey)
  | rel (k : GrabKey)

/-- Apply one logical operation to the table (a failed acquire leaves the
table unchanged, as §4.3 prescribes). -/
def applyTOp (cfg : List Nat) (ok : Nat → Nat → Nat → Bool)
    (t : GrabTable) : TOp → GrabTable
  | .acq k =>
    match (GrabTable.acquire cfg ok t k).1 with
    | .ok t' => t'
    | .error _ => t
  | .rel k => (GrabTable.release t k).1

/-- Apply a sequence of logical operations in order. -/
def runTOps (cfg : List Nat) (ok : Nat → Nat → Nat → Bool)
    (t : GrabTable) : List TOp → GrabTable
  | [] => t
  | op :: rest => runTOps cfg ok (applyTOp cfg ok t op) rest

/-- The refcount a key holds in the table (0 when absent). -/
def refcountOf (t : GrabTable) (k : GrabKey) : Nat := (t k).elim 0 (·.refcount)

/-- Whether the underlying passive grab is issued for a key (false when
absent). -/
def issuedOf (t : GrabTable) (k : GrabKey) : Bool := (t k).elim false (·.issued)

/-- The grab-table invariant of §3: every present entry is issued, holds a
positive refcount, and remembers the nonempty list of expanded physical
masks it issued. -/
def GrabInv (t : GrabTable) : Prop :=
  ∀ k e, t k = some e → e.issued = true ∧ 0 < e.refcount ∧ e.masks ≠ []

/-! ## Concrete test fixtures -/

/-- A transport that refuses a physical grab exactly on mask 2. -/
def refuseMask2 : Nat → Nat → Nat → Bool := fun _ m _ => decide (m ≠ 2)

/-- A transport that grants every physical grab. -/
def grantAll : Nat → Nat → Nat → Bool := fun _ _ _ => true

/-- Registry fixture for the dispatch-correctness example: three bindings
on window 0, button 1, press — for masks {control, shift} (5),
{control, shift, numlock} (21) and {shift} (1). -/
def regC4 : List Binding :=
  [⟨1, 0, 5, 1, .press, false, false⟩,
   ⟨2, 0, 21, 1, .press, false, false⟩,
   ⟨3, 0, 1, 1, .press, false, false⟩]

/-- Event fixture: reported modifier state {control, shift, numlock}
(mask 21) on window 0, button 1, press. -/
def evC4 : Event := ⟨0, 21, 1, .press⟩

/-! ## Helper lemmas -/

/-- Resolution fails (with `UnknownModifier`) whenever some segment is
not a known modifier name. -/
theorem resolveMods_unknown {segs : List (List Char)}
    (h : ∃ seg ∈ segs, lookupMod seg = none) :
    resolveMods segs = .error .UnknownModifier := by
  induction segs with
  | nil => obtain ⟨seg, hm, _⟩ := h; exact absurd hm (List.not_mem_nil seg)
  | cons head tail ih =>
    obtain ⟨seg, hm, hseg⟩ := h
    rcases List.mem_cons.mp hm with rfl | hmem
    · simp [resolveMods, hseg]
    · unfold resolveMods
      cases hh : lookupMod head with
      | none => rfl
      | some m => rw [ih ⟨seg, hmem, hseg⟩]

/-- Modifier resolution only ever fails with `UnknownModifier`. -/
theorem resolveMods_error {segs : List (List Char)} {e : ParseError}
    (h : resolveMods segs = .error e) : e = .UnknownModifier := by
  induction segs with
  | nil => simp [resolveMods] at h
  | cons head tail ih =>
    unfold resolveMods at h
    cases hh : lookupMod head with
    | none => rw [hh] at h; exact ((Except.error.injEq _ _).mp h).symm
    | some m =>
      rw [hh] at h
      cases hr : resolveMods tail with
      | error e' => rw [hr] at h; cases h; exact ih hr
      | ok ms => rw [hr] at h; cases h

/-- Decomposing a ReplayCoordinator run along an append of traces. -/
theorem rrun_append {s s'' : RState} {l₁ l₂ : List RAct}
    (h : RRun s (l₁ ++ l₂) s'') : ∃ m, RRun s l₁ m ∧ RRun m l₂ s'' := by
  induction l₁ generalizing s with
  | nil => exact ⟨s, RRun.nil s, h⟩
  | cons a tl ih =>
    cases h with
    | cons hs hr =>
      obtain ⟨m, h₁, h₂⟩ := ih hr
      exact ⟨m, RRun.cons hs h₁, h₂⟩

/-! ## Claim theorems -/

/-- C6: `parse` realises exactly the spec's error taxonomy:
`UnknownModifier` whenever some modifier segment is unrecognized (e.g.
"foo-1"), `MissingButton` when the trailing segment is missing (e.g.
"shift-"), `InvalidButtonNumber` when the trailing segment is non-numeric
(so the package documentation's own example sequence "Mod4-t" fails to
parse) or out of range, and `EmptySequence` exactly for the empty
string. -/
theorem c6_parse_error_taxonomy :
    (∀ s : String, s.data ≠ [] →
        (∃ seg ∈ (splitSeq s.data).dropLast, lookupMod seg = none) →
        parse s = .error .UnknownModifier) ∧
    (∀ (s : String) (ms : List ModTok), s.data ≠ [] →
        resolveMods (splitSeq s.data).dropLast = .ok ms →
        (splitSeq s.data).getLastD [] = [] →
        parse s = .error .MissingButton) ∧
    (∀ (s : String) (ms : List ModTok), s.data ≠ [] →
        resolveMods (splitSeq s.data).dropLast = .ok ms →
        (splitSeq s.data).getLastD [] ≠ [] →
        parseNatChars ((splitSeq s.data).getLastD []) = none →
        parse s = .error .InvalidButtonNumber) ∧
    (∀ (s : String) (ms : List ModTok) (n : Nat), s.data ≠ [] →
        resolveMods (splitSeq s.data).dropLast = .ok ms →
        (splitSeq s.data).getLastD [] ≠ [] →
        parseNatChars ((splitSeq s.data).getLastD []) = some n →
        ¬ (1 ≤ n ∧ n ≤ maxButton) →
        parse s = .error .InvalidButtonNumber) ∧
    (∀ s : String, s.data = [] → parse s = .error .EmptySequence) ∧
    parse "foo-1" = .error .UnknownModifier ∧
    parse "shift-" = .error .MissingButton ∧
    parse "Mod4-t" = .error .InvalidButtonNumber ∧
    parse "300" = .error .InvalidButtonNumber ∧
    parse "" = .error .EmptySequence ∧
    parse "5" = .ok ⟨[], 5⟩ := by
  refine ⟨?_, ?_, ?_, ?_, ?_, by decide, by decide, by decide, by decide,
    by decide, by decide⟩
  · intro s hne hex
    simp only [parse, if_neg hne, resolveMods_unknown hex]
  · intro s ms hne hok hlast
    simp only [parse, if_neg hne, hok, hlast, if_pos]
  · intro s ms hne hok hlast hnum
    simp only [parse, if_neg hne, hok, if_neg hlast, hnum]
  · intro s ms n hne hok hlast hnum hrange
    simp only [parse, if_neg hne, hok, if_neg hlast, hnum, if_neg hrange]
  · intro s hnil
    simp only [parse, if_pos hnil]

/-- Witness for C6's universal parts at a concrete input. -/
theorem c6_parse_error_taxonomy_witness :
    parse "zzz-1" = .error .UnknownModifier :=
  c6_parse_error_taxonomy.1 "zzz-1" (by decide)
    ⟨['z','z','z'], by decide, by decide⟩

/-- C5: in every run of the ReplayCoordinator, dispatching a
synchronous-grab event moves the state from `idle` to `awaitingReplay`; no
such event can be dispatched while the state is `awaitingReplay`; the only
transition out of `awaitingReplay` is the explicit `allowReplayed` action,
back to `idle`; and consequently any run from `idle` containing two
synchronous-grab dispatches has an `allowReplayed` action strictly between
them. -/
theorem c5_replay_freeze :
    (∀ s s' : RState, RStep s .dispatchSync s' →
        s = .idle ∧ s' = .awaitingReplay) ∧
    (∀ s' : RState, ¬ RStep .awaitingReplay .dispatchSync s') ∧
    (∀ (a : RAct) (s' : RState), RStep .awaitingReplay a s' →
        a = .allowReplayed ∧ s' = .idle) ∧
    (∀ (tr₁ tr₂ tr₃ : List RAct) (sf : RState),
        RRun .idle (tr₁ ++ .dispatchSync :: (tr₂ ++ .dispatchSync :: tr₃)) sf →
        .allowReplayed ∈ tr₂) := by
  refine ⟨?_, ?_, ?_, ?_⟩
  · intro s s' h; cases h; exact ⟨rfl, rfl⟩
  · intro s' h; cases h
  · intro a s' h; cases h; exact ⟨rfl, rfl⟩
  · intro tr₁ tr₂ tr₃ sf h
    obtain ⟨m, -, h₂⟩ := rrun_append h
    cases h₂ with
    | cons hstep hrest =>
      cases hstep
      cases tr₂ with
      | nil =>
        cases hrest with
        | cons hstep₂ _ => cases hstep₂
      | cons a rest =>
        cases hrest with
        | cons hstep₂ _ =>
          cases hstep₂
          exact List.mem_cons_self _ _

/-- Witness for C5 at a concrete run: idle —dispatchSync→ awaitingReplay
—allowReplayed→ idle —dispatchSync→ awaitingReplay. -/
theorem c5_replay_freeze_witness :
    RAct.allowReplayed ∈ [RAct.allowReplayed] :=
  c5_replay_freeze.2.2.2 [] [RAct.allowReplayed] [] RState.awaitingReplay
    (RRun.cons RStep.dispatchSync (RRun.cons RStep.allowAwaiting
      (RRun.cons RStep.dispatchSync (RRun.nil _))))

/-- When the transport grants everything, every expanded grab is issued. -/
theorem issueGrabs_all_ok {ok : Nat → Nat → Nat → Bool}
    (hok : ∀ w m b, ok w m b = true) (w b : Nat) (ms : List Nat) :
    issueGrabs ok w b ms = (true, ms) := by
  induction ms with
  | nil => rfl
  | cons m rest ih => simp [issueGrabs, hok, ih]

/-- Two numbers differing at one bit are distinct. -/
theorem ne_of_testBit_ne {x y i : Nat}
    (hx : x.testBit i = true) (hy : y.testBit i = false) : x ≠ y := by
  intro h
  rw [h, hy] at hx
  exact Bool.false_ne_true hx

/-- C2: with IgnoreMaskConfig = {numlock, capslock}, a fresh
`GrabTable.acquire` issues exactly 4 physical grabs, one per subset of the
ignore bits — the requested mask alone, with numlock, with capslock, and
with both — and for a canonical (ignore-stripped) mask the four expanded
masks are pairwise distinct. -/
theorem c2_ignore_expansion (ok : Nat → Nat → Nat → Bool) (t : GrabTable)
    (k : GrabKey) (hnew : t k = none) (hok : ∀ w m b, ok w m b = true) :
    (GrabTable.acquire [numlockMask, capslockMask] ok t k).2 =
      [Op.grab k.window k.mask k.button,
       Op.grab k.window (k.mask ||| numlockMask) k.button,
       Op.grab k.window (k.mask ||| capslockMask) k.button,
       Op.grab k.window (k.mask ||| (numlockMask ||| capslockMask)) k.button] ∧
    (GrabTable.acquire [numlockMask, capslockMask] ok t k).2.length = 4 ∧
    (k.mask &&& (numlockMask ||| capslockMask) = 0 →
      k.mask ≠ k.mask ||| numlockMask ∧
      k.mask ≠ k.mask ||| capslockMask ∧
      k.mask ≠ k.mask ||| (numlockMask ||| capslockMask) ∧
      k.mask ||| numlockMask ≠ k.mask ||| capslockMask ∧
      k.mask ||| numlockMask ≠ k.mask ||| (numlockMask ||| capslockMask) ∧
      k.mask ||| capslockMask ≠ k.mask ||| (numlockMask ||| capslockMask)) := by
  have hcombos : maskCombos [numlockMask, capslockMask] = [0, 16, 2, 18] := rfl
  have hexp : expandMasks [numlockMask, capslockMask] k.mask =
      [k.mask, k.mask ||| 16, k.mask ||| 2, k.mask ||| 18] := by
    rw [expandMasks, hcombos]
    simp [Nat.or_zero]
  have hops : (GrabTable.acquire [numlockMask, capslockMask] ok t k).2 =
      (expandMasks [numlockMask, capslockMask] k.mask).map
        (fun m => Op.grab k.window m k.button) := by
    simp [GrabTable.acquire, hnew, issueGrabs_all_ok hok]
  refine ⟨?_, ?_, ?_⟩
  · rw [hops, hexp]
    simp [numlockMask, capslockMask]
  · rw [hops, hexp]
    rfl
  · intro hz
    have hb : ∀ i, (18 : Nat).testBit i = true → k.mask.testBit i = false := by
      intro i hi
      have h18 : numlockMask ||| capslockMask = 18 := rfl
      rw [h18] at hz
      have hcongr := congrArg (fun x => Nat.testBit x i) hz
      simp only [Nat.testBit_and, hi, Bool.and_true, Nat.zero_testBit] at hcongr
      exact hcongr
    have h4 : k.mask.testBit 4 = false := hb 4 (by decide)
    have h1 : k.mask.testBit 1 = false := hb 1 (by decide)
    have e16_4 : (k.mask ||| numlockMask).testBit 4 = true := by
      rw [Nat.testBit_or, h4]; decide
    have e16_1 : (k.mask ||| numlockMask).testBit 1 = false := by
      rw [Nat.testBit_or, h1]; decide
    have e2_4 : (k.mask ||| capslockMask).testBit 4 = false := by
      rw [Nat.testBit_or, h4]; decide
    have e2_1 : (k.mask ||| capslockMask).testBit 1 = true := by
      rw [Nat.testBit_or, h1]; decide
    have e18_4 : (k.mask ||| (numlockMask ||| capslockMask)).testBit 4 = true := by
      rw [Nat.testBit_or, h4]; decide
    have e18_1 : (k.mask ||| (numlockMask ||| capslockMask)).testBit 1 = true := by
      rw [Nat.testBit_or, h1]; decide
    exact ⟨(ne_of_testBit_ne e16_4 h4).symm, (ne_of_testBit_ne e2_1 h1).symm,
           (ne_of_testBit_ne e18_4 h4).symm, ne_of_testBit_ne e16_4 e2_4,
           ne_of_testBit_ne e18_1 e16_1 |>.symm, ne_of_testBit_ne e18_4 e2_4 |>.symm⟩

/-- Witness for C2 at a concrete key: window 7, canonical mask 5
({control, shift}), button 1, empty table, all grabs granted. -/
theorem c2_ignore_expansion_witness :
    (GrabTable.acquire [numlockMask, capslockMask] grantAll GrabTable.empty
        ⟨7, 5, 1⟩).2 =
      [Op.grab 7 5 1, Op.grab 7 (5 ||| numlockMask) 1,
       Op.grab 7 (5 ||| capslockMask) 1,
       Op.grab 7 (5 ||| (numlockMask ||| capslockMask)) 1] ∧
    (GrabTable.acquire [numlockMask, capslockMask] grantAll GrabTable.empty
        ⟨7, 5, 1⟩).2.length = 4 ∧
    ((5 : Nat) &&& (numlockMask ||| capslockMask) = 0 →
      (5 : Nat) ≠ 5 ||| numlockMask ∧
      (5 : Nat) ≠ 5 ||| capslockMask ∧
      (5 : Nat) ≠ 5 ||| (numlockMask ||| capslockMask) ∧
      (5 : Nat) ||| numlockMask ≠ 5 ||| capslockMask ∧
      (5 : Nat) ||| numlockMask ≠ 5 ||| (numlockMask ||| capslockMask) ∧
      (5 : Nat) ||| capslockMask ≠ 5 ||| (numlockMask ||| capslockMask)) :=
  c2_ignore_expansion grantAll GrabTable.empty ⟨7, 5, 1⟩ rfl (fun _ _ _ => rfl)

/-- C3: a fresh `GrabTable.acquire` on which some expanded physical grab
fails returns `AlreadyGrabbed`, its transport log pairs every issued grab
with a rollback ungrab of the same (window, mask, button), and the grab
table is left unchanged — no entry is created. -/
theorem c3_acquire_rollback (cfg : List Nat) (ok : Nat → Nat → Nat → Bool)
    (t : GrabTable) (k : GrabKey) (hnew : t k = none)
    (hfail : (issueGrabs ok k.window k.button (expandMasks cfg k.mask)).1 = false) :
    (GrabTable.acquire cfg ok t k).1 = .error .AlreadyGrabbed ∧
    (GrabTable.acquire cfg ok t k).2 =
      (issueGrabs ok k.window k.button (expandMasks cfg k.mask)).2.map
        (fun m => Op.grab k.window m k.button) ++
      (issueGrabs ok k.window k.button (expandMasks cfg k.mask)).2.reverse.map
        (fun m => Op.ungrab k.window m k.button) ∧
    (∀ w m b, Op.grab w m b ∈ (GrabTable.acquire cfg ok t k).2 ↔
              Op.ungrab w m b ∈ (GrabTable.acquire cfg ok t k).2) ∧
    applyTOp cfg ok t (.acq k) = t := by
  have hops : GrabTable.acquire cfg ok t k =
      (.error .AlreadyGrabbed,
       (issueGrabs ok k.window k.button (expandMasks cfg k.mask)).2.map
         (fun m => Op.grab k.window m k.button) ++
       (issueGrabs ok k.window k.button (expandMasks cfg k.mask)).2.reverse.map
         (fun m => Op.ungrab k.window m k.button)) := by
    simp [GrabTable.acquire, hnew, hfail]
  refine ⟨by rw [hops], by rw [hops], ?_, ?_⟩
  · intro w m b
    rw [hops]
    simp [List.mem_append, List.mem_map]
  · simp [applyTOp, hops]

/-- Witness for C3: ignore bits {numlock, capslock}, key mask 0, a
transport that refuses mask 2 — the first two expanded grabs (0 and 16)
are issued and then rolled back. -/
theorem c3_acquire_rollback_witness :
    (GrabTable.acquire [numlockMask, capslockMask] refuseMask2
        GrabTable.empty ⟨7, 0, 1⟩).1 = .error .AlreadyGrabbed ∧
    (GrabTable.acquire [numlockMask, capslockMask] refuseMask2
        GrabTable.empty ⟨7, 0, 1⟩).2 =
      (issueGrabs refuseMask2 7 1
          (expandMasks [numlockMask, capslockMask] 0)).2.map
        (fun m => Op.grab 7 m 1) ++
      (issueGrabs refuseMask2 7 1
          (expandMasks [numlockMask, capslockMask] 0)).2.reverse.map
        (fun m => Op.ungrab 7 m 1) ∧
    (∀ w m b,
      Op.grab w m b ∈ (GrabTable.acquire [numlockMask, capslockMask]
          refuseMask2 GrabTable.empty ⟨7, 0, 1⟩).2 ↔
      Op.ungrab w m b ∈ (GrabTable.acquire [numlockMask, capslockMask]
          refuseMask2 GrabTable.empty ⟨7, 0, 1⟩).2) ∧
    applyTOp [numlockMask, capslockMask] refuseMask2 GrabTable.empty
      (.acq ⟨7, 0, 1⟩) = GrabTable.empty :=
  c3_acquire_rollback [numlockMask, capslockMask] refuseMask2
    GrabTable.empty ⟨7, 0, 1⟩ rfl (by decide)


/-- Point-update lookup at the updated key. -/
theorem GrabTable.update_self (t : GrabTable) (k : GrabKey) (v : Option GrabEntry) :
    t.update k v k = v := if_pos rfl

/-- Point-update lookup away from the updated key. -/
theorem GrabTable.update_other (t : GrabTable) (k : GrabKey) (v : Option GrabEntry)
    {k' : GrabKey} (h : k' ≠ k) : t.update k v k' = t k' := if_neg h

/-- The ignore-subset mask list is never empty. -/
theorem maskCombos_ne_nil (bits : List Nat) : maskCombos bits ≠ [] := by
  have key : ∀ (bs : List Nat) (acc : List Nat), acc ≠ [] →
      bs.foldl (fun acc b => acc ++ acc.map (· ||| b)) acc ≠ [] := by
    intro bs
    induction bs with
    | nil => intro acc h; exact h
    | cons b rest ih =>
      intro acc h
      exact ih _ (fun hc => h (List.append_eq_nil.mp hc).1)
  exact key bits [0] (by simp)

/-- The expansion of a mask is never empty. -/
theorem expandMasks_ne_nil (cfg : List Nat) (m : Nat) : expandMasks cfg m ≠ [] := by
  unfold expandMasks
  intro h
  exact maskCombos_ne_nil cfg (List.map_eq_nil_iff.mp h)

/-- The empty grab table satisfies the invariant. -/
theorem grabInv_empty : GrabInv GrabTable.empty := by
  intro k e h
  cases h

/-- A successful `acquire` preserves the grab-table invariant. -/
theorem grabInv_acquire {cfg : List Nat} {ok : Nat → Nat → Nat → Bool}
    {t : GrabTable} {k : GrabKey} {t' : GrabTable} {ops : List Op}
    (hinv : GrabInv t) (hacq : GrabTable.acquire cfg ok t k = (.ok t', ops)) :
    GrabInv t' := by
  cases htk : t k with
  | some e =>
    simp only [GrabTable.acquire, htk, Prod.mk.injEq, Except.ok.injEq] at hacq
    obtain ⟨ht', -⟩ := hacq
    subst ht'
    intro k' e' h'
    by_cases hk : k' = k
    · subst hk
      rw [GrabTable.update_self] at h'
      obtain ⟨hiss, -, hmasks⟩ := hinv k' e htk
      cases h'
      exact ⟨hiss, Nat.succ_pos _, hmasks⟩
    · rw [GrabTable.update_other t k _ hk] at h'
      exact hinv k' e' h'
  | none =>
    simp only [GrabTable.acquire, htk] at hacq
    split at hacq
    · simp only [Prod.mk.injEq, Except.ok.injEq] at hacq
      obtain ⟨ht', -⟩ := hacq
      subst ht'
      intro k' e' h'
      by_cases hk : k' = k
      · subst hk
        rw [GrabTable.update_self] at h'
        cases h'
        exact ⟨rfl, Nat.one_pos, expandMasks_ne_nil _ _⟩
      · rw [GrabTable.update_other t k _ hk] at h'
        exact hinv k' e' h'
    · simp only [Prod.mk.injEq] at hacq
      exact absurd hacq.1 (by simp)

/-- Releasing a key preserves the grab-table invariant. -/
theorem grabInv_release {t : GrabTable} (k : GrabKey) (hinv : GrabInv t) :
    GrabInv (GrabTable.release t k).1 := by
  cases htk : t k with
  | none => simpa [GrabTable.release, htk] using hinv
  | some e =>
    simp only [GrabTable.release, htk]
    split
    · intro k' e' h'
      dsimp only at h'
      by_cases hk : k' = k
      · subst hk
        rw [GrabTable.update_self] at h'
        cases h'
      · rw [GrabTable.update_other t _ _ hk] at h'
        exact hinv k' e' h'
    · intro k' e' h'
      dsimp only at h'
      by_cases hk : k' = k
      · subst hk
        rw [GrabTable.update_self] at h'
        obtain ⟨hiss, -, hmasks⟩ := hinv _ e htk
        cases h'
        refine ⟨hiss, ?_, hmasks⟩
        show 0 < e.refcount - 1
        omega
      · rw [GrabTable.update_other t _ _ hk] at h'
        exact hinv k' e' h'

/-- Every logical operation preserves the grab-table invariant. -/
theorem grabInv_applyTOp (cfg : List Nat) (ok : Nat → Nat → Nat → Bool)
    {t : GrabTable} (op : TOp) (hinv : GrabInv t) :
    GrabInv (applyTOp cfg ok t op) := by
  cases op with
  | acq k =>
    cases hacq : GrabTable.acquire cfg ok t k with
    | mk res ops =>
      cases res with
      | error ge =>
        simp only [applyTOp, hacq]
        exact hinv
      | ok t' =>
        simp only [applyTOp, hacq]
        exact grabInv_acquire hinv hacq
  | rel k => exact grabInv_release k hinv

/-- The invariant holds after any history of logical operations. -/
theorem grabInv_runTOps (cfg : List Nat) (ok : Nat → Nat → Nat → Bool)
    (l : List TOp) {t : GrabTable} (hinv : GrabInv t) :
    GrabInv (runTOps cfg ok t l) := by
  induction l generalizing t with
  | nil => exact hinv
  | cons op rest ih => exact ih (grabInv_applyTOp cfg ok op hinv)

/-- C8: after every history of acquire/release operations from the empty
table, a key's passive grab is issued exactly when its refcount is
positive; a successful first acquire creates the entry with refcount 1,
issued, holding the expanded masks; and a release that takes the refcount
to 0 removes the entry and issues its (nonempty) ungrabs. -/
theorem c8_issued_iff_refcount :
    (∀ (cfg : List Nat) (ok : Nat → Nat → Nat → Bool) (l : List TOp) (k : GrabKey),
        issuedOf (runTOps cfg ok GrabTable.empty l) k = true ↔
        0 < refcountOf (runTOps cfg ok GrabTable.empty l) k) ∧
    (∀ (cfg : List Nat) (ok : Nat → Nat → Nat → Bool) (t : GrabTable)
        (k : GrabKey) (t' : GrabTable) (ops : List Op), t k = none →
        GrabTable.acquire cfg ok t k = (.ok t', ops) →
        t' k = some ⟨1, true, expandMasks cfg k.mask⟩) ∧
    (∀ (t : GrabTable) (k : GrabKey) (e : GrabEntry), GrabInv t →
        t k = some e → e.refcount = 1 →
        (GrabTable.release t k).1 k = none ∧
        (GrabTable.release t k).2 =
          e.masks.map (fun m => Op.ungrab k.window m k.button) ∧
        (GrabTable.release t k).2 ≠ []) := by
  refine ⟨?_, ?_, ?_⟩
  · intro cfg ok l k
    have hinv := grabInv_runTOps cfg ok l grabInv_empty
    cases ht : runTOps cfg ok GrabTable.empty l k with
    | none => simp [issuedOf, refcountOf, ht]
    | some e =>
      obtain ⟨hiss, hpos, -⟩ := hinv k e ht
      simp [issuedOf, refcountOf, ht, hiss, hpos]
  · intro cfg ok t k t' ops hnone hacq
    simp only [GrabTable.acquire, hnone] at hacq
    split at hacq
    · simp only [Prod.mk.injEq, Except.ok.injEq] at hacq
      obtain ⟨ht', -⟩ := hacq
      subst ht'
      exact GrabTable.update_self ..
    · simp only [Prod.mk.injEq] at hacq
      exact absurd hacq.1 (by simp)
  · intro t k e hinv ht hrc
    obtain ⟨-, -, hmasks⟩ := hinv k e ht
    simp only [GrabTable.release, ht]
    rw [if_pos (by omega : e.refcount ≤ 1)]
    refine ⟨GrabTable.update_self .., rfl, ?_⟩
    intro hc
    exact hmasks (List.map_eq_nil_iff.mp hc)

/-- Witness for C8's conditional parts: a first acquire of key
(0, mask 0, button 1) with no ignore bits creates the entry, and releasing
it removes the entry and ungrabs mask 0. -/
theorem c8_issued_iff_refcount_witness :
    ((GrabTable.empty.update ⟨0, 0, 1⟩ (some ⟨1, true, [0]⟩)) ⟨0, 0, 1⟩ =
      some ⟨1, true, [0]⟩) ∧
    ((GrabTable.release
        (GrabTable.empty.update ⟨0, 0, 1⟩ (some ⟨1, true, [0]⟩)) ⟨0, 0, 1⟩).1
        ⟨0, 0, 1⟩ = none ∧
     (GrabTable.release
        (GrabTable.empty.update ⟨0, 0, 1⟩ (some ⟨1, true, [0]⟩)) ⟨0, 0, 1⟩).2 =
        [0].map (fun m => Op.ungrab 0 m 1) ∧
     (GrabTable.release
        (GrabTable.empty.update ⟨0, 0, 1⟩ (some ⟨1, true, [0]⟩)) ⟨0, 0, 1⟩).2 ≠ []) := by
  have hinv : GrabInv (GrabTable.empty.update ⟨0, 0, 1⟩ (some ⟨1, true, [0]⟩)) := by
    intro k' e' h'
    by_cases hk : k' = (⟨0, 0, 1⟩ : GrabKey)
    · subst hk
      rw [GrabTable.update_self] at h'
      cases h'
      exact ⟨rfl, Nat.one_pos, by simp⟩
    · rw [GrabTable.update_other _ _ _ hk] at h'
      cases h'
  exact ⟨c8_issued_iff_refcount.2.1 [] grantAll GrabTable.empty ⟨0, 0, 1⟩
          (GrabTable.empty.update ⟨0, 0, 1⟩ (some ⟨1, true, [0]⟩))
          [Op.grab 0 0 1] rfl rfl,
         c8_issued_iff_refcount.2.2
          (GrabTable.empty.update ⟨0, 0, 1⟩ (some ⟨1, true, [0]⟩))
          ⟨0, 0, 1⟩ ⟨1, true, [0]⟩ hinv (GrabTable.update_self ..) rfl⟩

/-- C9: detaching a handle that is not registered (never registered, or
already detached) is a no-op: it issues no transport request and leaves the
whole engine — in particular every other binding's grab-table entry —
unchanged; likewise `GrabTable.release` on an unknown key is a no-op; and
a second `Detach` of the same handle is always a no-op. -/
theorem c9_detach_unknown :
    (∀ (e : Engine) (h : Nat), (∀ b ∈ e.reg, b.id ≠ h) → Detach e h = (e, [])) ∧
    (∀ (t : GrabTable) (k : GrabKey), t k = none →
        GrabTable.release t k = (t, [])) ∧
    (∀ (e : Engine) (h : Nat),
        Detach (Detach e h).1 h = ((Detach e h).1, [])) := by
  refine ⟨?_, ?_, ?_⟩
  · intro e h hne
    have hf : e.reg.find? (fun b => b.id = h) = none := by
      rw [List.find?_eq_none]
      intro x hx
      simpa using hne x hx
    simp [Detach, hf]
  · intro t k hnone
    simp [GrabTable.release, hnone]
  · intro e h
    cases hf : e.reg.find? (fun b => b.id = h) with
    | none => simp [Detach, hf]
    | some b =>
      have hf2 : (e.reg.filter (fun x => ¬ x.id = h)).find?
          (fun b => b.id = h) = none := by
        rw [List.find?_eq_none]
        intro x hx
        have := (List.mem_filter.mp hx).2
        simpa using this
      have hfalse : e.reg.find? (fun _ => false) = none :=
        List.find?_eq_none.mpr (fun x _ => by simp)
      by_cases hg : b.isGrab
      · simp [Detach, hf, hg, hf2, hfalse]
      · simp [Detach, hf, hg, hf2, hfalse]

/-- Witness for C9 at concrete inputs: detaching handle 0 from the empty
engine, and releasing an absent key, are no-ops. -/
theorem c9_detach_unknown_witness :
    Detach Engine.empty 0 = (Engine.empty, []) ∧
    GrabTable.release GrabTable.empty ⟨0, 0, 1⟩ = (GrabTable.empty, []) :=
  ⟨c9_detach_unknown.1 Engine.empty 0 (fun b hb => absurd hb (List.not_mem_nil b)),
   c9_detach_unknown.2.1 GrabTable.empty ⟨0, 0, 1⟩ rfl⟩

/-- C4: the dispatcher strips exactly the IgnoreMaskConfig bits from the
event's reported modifier state (bitwise characterization), invokes
precisely the callbacks registered for the resulting canonical mask — in
registration order, each passed the original unstripped event — and on the
spec's example (reported {control, shift, numlock}, ignoring numlock) it
invokes the {control, shift} binding and neither the
{control, shift, numlock} nor the {shift} binding. -/
theorem c4_dispatch_correctness :
    (∀ (cfg : List Nat) (m i : Nat),
        (stripMask cfg m).testBit i = (m.testBit i && !(orAll cfg).testBit i)) ∧
    (∀ (cfg : List Nat) (reg : List Binding) (ev : Event),
        (matchBindings reg ev.window (stripMask cfg ev.state) ev.button ev.dir).Sublist reg ∧
        dispatch cfg reg ev =
          (matchBindings reg ev.window (stripMask cfg ev.state) ev.button ev.dir).map
            (fun b => (b.id, ev)) ∧
        (∀ b : Binding,
          b ∈ matchBindings reg ev.window (stripMask cfg ev.state) ev.button ev.dir ↔
            b ∈ reg ∧ b.window = ev.window ∧ b.mask = stripMask cfg ev.state ∧
            b.button = ev.button ∧ b.dir = ev.dir) ∧
        (∀ p ∈ dispatch cfg reg ev, p.2 = ev)) ∧
    dispatch [numlockMask] regC4 evC4 = [(1, evC4)] := by
  refine ⟨?_, ?_, by decide⟩
  · intro cfg m i
    unfold stripMask
    rw [Nat.testBit_xor, Nat.testBit_and]
    cases m.testBit i <;> cases (orAll cfg).testBit i <;> rfl
  · intro cfg reg ev
    refine ⟨List.filter_sublist reg, rfl, ?_, ?_⟩
    · intro b
      simp [matchBindings, List.mem_filter, bindMatches, and_assoc]
    · intro p hp
      unfold dispatch at hp
      obtain ⟨b, -, rfl⟩ := List.mem_map.mp hp
      rfl

/-- Witness for C4: the spec's dispatch example, by applying the theorem's
concrete conjunct. -/
theorem c4_dispatch_correctness_witness :
    dispatch [numlockMask] regC4 evC4 = [(1, evC4)] :=
  c4_dispatch_correctness.2.2

/-- C10 counterexample: with grab=false, flipping only the sync flag does
NOT produce identical engine state — the stored binding records the sync
flag, so the registries differ after the two Connect calls. -/
theorem c10_counterexample :
    (Connect [] grantAll Engine.empty 0 "1" false true .press).1.map
        (fun p => p.1.reg) ≠
    (Connect [] grantAll Engine.empty 0 "1" false false .press).1.map
        (fun p => p.1.reg) := by decide

/-- C10 (amended): with grab=false the sync flag has no observable effect —
the two Connect calls return the same handle and the same (empty) transport
log, and the resulting engines agree on the grab table, the next handle,
every binding field except the recorded sync flag, and on the dispatch
result and synchronous-grab detection of every subsequent event. -/
theorem c10_sync_irrelevant_without_grab (cfg : List Nat)
    (ok : Nat → Nat → Nat → Bool) (e : Engine) (w : Nat) (seq : String) (d : Dir) :
    ((Connect cfg ok e w seq false true d).1.map Prod.snd =
     (Connect cfg ok e w seq false false d).1.map Prod.snd) ∧
    (Connect cfg ok e w seq false true d).2 = [] ∧
    (Connect cfg ok e w seq false false d).2 = [] ∧
    (∀ (eT : Engine) (hT : Nat) (eF : Engine) (hF : Nat),
        (Connect cfg ok e w seq false true d).1 = .ok (eT, hT) →
        (Connect cfg ok e w seq false false d).1 = .ok (eF, hF) →
        hT = hF ∧ eT.table = eF.table ∧ eT.nextId = eF.nextId ∧
        eT.reg.map (fun b => (b.id, b.window, b.mask, b.button, b.dir, b.isGrab)) =
          eF.reg.map (fun b => (b.id, b.window, b.mask, b.button, b.dir, b.isGrab)) ∧
        (∀ ev : Event, dispatch cfg eT.reg ev = dispatch cfg eF.reg ev) ∧
        (∀ ev : Event, syncGrabHit cfg eT.reg ev = syncGrabHit cfg eF.reg ev)) := by
  cases hp : parse seq with
  | error pe =>
    refine ⟨by simp [Connect, hp], by simp [Connect, hp], by simp [Connect, hp], ?_⟩
    intro eT hT eF hF hTe hFe
    simp [Connect, hp] at hTe
  | ok bs =>
    refine ⟨by simp [Connect, hp, Except.map], by simp [Connect, hp],
      by simp [Connect, hp], ?_⟩
    intro eT hT eF hF hTe hFe
    simp only [Connect, hp, Bool.false_eq_true, if_false, Except.ok.injEq,
      Prod.mk.injEq] at hTe hFe
    obtain ⟨hTeng, hTh⟩ := hTe
    obtain ⟨hFeng, hFh⟩ := hFe
    subst hTeng hFeng hTh hFh
    refine ⟨rfl, rfl, rfl, by simp, ?_, ?_⟩
    · intro ev
      simp only [dispatch, matchBindings, bindMatches, List.filter_append,
        List.map_append, List.filter_cons, List.filter_nil]
      split_ifs <;> simp
    · intro ev
      simp only [syncGrabHit, matchBindings, bindMatches, List.filter_append,
        List.any_append, List.filter_cons, List.filter_nil]
      split_ifs <;> simp

/-- Witness for C10's amended theorem at a concrete input: engine grown by
Connect(window 0, "1", grab=false) with sync=true resp. sync=false, probed
with a concrete event. -/
theorem c10_sync_irrelevant_without_grab_witness :
    dispatch [] [⟨0, 0, 0, 1, .press, false, true⟩] evC4 =
      dispatch [] [⟨0, 0, 0, 1, .press, false, false⟩] evC4 ∧
    syncGrabHit [] [⟨0, 0, 0, 1, .press, false, true⟩] evC4 =
      syncGrabHit [] [⟨0, 0, 0, 1, .press, false, false⟩] evC4 := by
  have h := (c10_sync_irrelevant_without_grab [] grantAll Engine.empty
      0 "1" .press).2.2.2
    ⟨[⟨0, 0, 0, 1, .press, false, true⟩], GrabTable.empty, 1⟩ 0
    ⟨[⟨0, 0, 0, 1, .press, false, false⟩], GrabTable.empty, 1⟩ 0 rfl rfl
  exact ⟨h.2.2.2.2.1 evC4, h.2.2.2.2.2 evC4⟩

/-- C1: two Connect calls with grab=true on the same
(window, canonical mask, button) key contact the transport only once — the
first call issues the expanded physical grabs, the second issues nothing
and takes the entry's refcount to 2; detaching one of the two bindings
issues no ungrab and leaves the physical grab in place (refcount 1);
detaching the other issues exactly the matching ungrabs (one per issued
physical grab — with no ignore bits, exactly one grab and one ungrab) and
removes the entry. -/
theorem c1_grab_sharing (cfg : List Nat) (w : Nat) (seq : String)
    (s₁ s₂ : Bool) (d : Dir) (bs : ButtonSequence) (hp : parse seq = .ok bs) :
    ∃ e₁ e₂ e₃ e₄ : Engine,
      Connect cfg grantAll Engine.empty w seq true s₁ d =
        (.ok (e₁, 0),
         (expandMasks cfg (stripMask cfg (encodeMods bs.mods))).map
           (fun m => Op.grab w m bs.button)) ∧
      Connect cfg grantAll e₁ w seq true s₂ d = (.ok (e₂, 1), []) ∧
      refcountOf e₂.table ⟨w, stripMask cfg (encodeMods bs.mods), bs.button⟩ = 2 ∧
      Detach e₂ 0 = (e₃, []) ∧
      e₃.table ⟨w, stripMask cfg (encodeMods bs.mods), bs.button⟩ =
        some ⟨1, true, expandMasks cfg (stripMask cfg (encodeMods bs.mods))⟩ ∧
      Detach e₃ 1 = (e₄,
        (expandMasks cfg (stripMask cfg (encodeMods bs.mods))).map
          (fun m => Op.ungrab w m bs.button)) ∧
      e₄.table ⟨w, stripMask cfg (encodeMods bs.mods), bs.button⟩ = none ∧
      (cfg = [] →
        (expandMasks cfg (stripMask cfg (encodeMods bs.mods))).map
            (fun m => Op.grab w m bs.button) =
          [Op.grab w (stripMask cfg (encodeMods bs.mods)) bs.button] ∧
        (expandMasks cfg (stripMask cfg (encodeMods bs.mods))).map
            (fun m => Op.ungrab w m bs.button) =
          [Op.ungrab w (stripMask cfg (encodeMods bs.mods)) bs.button]) := by
  have hok : ∀ w m b, grantAll w m b = true := fun _ _ _ => rfl
  refine ⟨⟨[⟨0, w, stripMask cfg (encodeMods bs.mods), bs.button, d, true, s₁⟩],
           GrabTable.empty.update
             ⟨w, stripMask cfg (encodeMods bs.mods), bs.button⟩
             (some ⟨1, true, expandMasks cfg (stripMask cfg (encodeMods bs.mods))⟩),
           1⟩,
          ⟨[⟨0, w, stripMask cfg (encodeMods bs.mods), bs.button, d, true, s₁⟩,
            ⟨1, w, stripMask cfg (encodeMods bs.mods), bs.button, d, true, s₂⟩],
           (GrabTable.empty.update
             ⟨w, stripMask cfg (encodeMods bs.mods), bs.button⟩
             (some ⟨1, true, expandMasks cfg (stripMask cfg (encodeMods bs.mods))⟩)).update
             ⟨w, stripMask cfg (encodeMods bs.mods), bs.button⟩
             (some ⟨2, true, expandMasks cfg (stripMask cfg (encodeMods bs.mods))⟩),
           2⟩,
          ⟨[⟨1, w, stripMask cfg (encodeMods bs.mods), bs.button, d, true, s₂⟩],
           ((GrabTable.empty.update
             ⟨w, stripMask cfg (encodeMods bs.mods), bs.button⟩
             (some ⟨1, true, expandMasks cfg (stripMask cfg (encodeMods bs.mods))⟩)).update
             ⟨w, stripMask cfg (encodeMods bs.mods), bs.button⟩
             (some ⟨2, true, expandMasks cfg (stripMask cfg (encodeMods bs.mods))⟩)).update
             ⟨w, stripMask cfg (encodeMods bs.mods), bs.button⟩
             (some ⟨1, true, expandMasks cfg (stripMask cfg (encodeMods bs.mods))⟩),
           2⟩,
          ⟨[],
           (((GrabTable.empty.update
             ⟨w, stripMask cfg (encodeMods bs.mods), bs.button⟩
             (some ⟨1, true, expandMasks cfg (stripMask cfg (encodeMods bs.mods))⟩)).update
             ⟨w, stripMask cfg (encodeMods bs.mods), bs.button⟩
             (some ⟨2, true, expandMasks cfg (stripMask cfg (encodeMods bs.mods))⟩)).update
             ⟨w, stripMask cfg (encodeMods bs.mods), bs.button⟩
             (some ⟨1, true, expandMasks cfg (stripMask cfg (encodeMods bs.mods))⟩)).update
             ⟨w, stripMask cfg (encodeMods bs.mods), bs.button⟩ none,
           2⟩,
          ?_, ?_, ?_, ?_, ?_, ?_, ?_, ?_⟩
  · simp [Connect, hp, GrabTable.acquire, Engine.empty, GrabTable.empty,
      issueGrabs_all_ok hok]
  · simp [Connect, hp, GrabTable.acquire, GrabTable.update]
  · simp [refcountOf, GrabTable.update]
  · simp [Detach, GrabTable.release, GrabTable.update]
  · simp [GrabTable.update]
  · simp [Detach, GrabTable.release, GrabTable.update]
  · simp [GrabTable.update]
  · intro h
    subst h
    constructor <;> simp [expandMasks, maskCombos]

/-- Witness for C1 at a concrete input: window 0, sequence "1", no ignore
bits — one physical grab, shared by two bindings, one physical ungrab. -/
theorem c1_grab_sharing_witness :
    ∃ e₁ e₂ e₃ e₄ : Engine,
      Connect [] grantAll Engine.empty 0 "1" true false .press =
        (.ok (e₁, 0), [Op.grab 0 0 1]) ∧
      Connect [] grantAll e₁ 0 "1" true false .press = (.ok (e₂, 1), []) ∧
      refcountOf e₂.table ⟨0, 0, 1⟩ = 2 ∧
      Detach e₂ 0 = (e₃, []) ∧
      e₃.table ⟨0, 0, 1⟩ = some ⟨1, true, [0]⟩ ∧
      Detach e₃ 1 = (e₄, [Op.ungrab 0 0 1]) ∧
      e₄.table ⟨0, 0, 1⟩ = none ∧
      (([] : List Nat) = [] →
        [Op.grab 0 0 1] = [Op.grab 0 0 1] ∧
        [Op.ungrab 0 0 1] = [Op.ungrab 0 0 1]) :=
  c1_grab_sharing [] 0 "1" false false .press ⟨[], 1⟩ rfl

/-- Splitting skips over a separator-free prefix, accumulating it. -/
theorem splitAux_append {s : List Char} (hnd : '-' ∉ s) (t acc : List Char) :
    splitAux (s ++ t) acc = splitAux t (s.reverse ++ acc) := by
  induction s generalizing acc with
  | nil => simp
  | cons c s' ih =>
    have hc : ¬ c = '-' := by
      intro h
      subst h
      exact hnd (List.mem_cons_self _ _)
    have hs' : '-' ∉ s' := fun h => hnd (List.mem_cons_of_mem _ h)
    calc splitAux ((c :: s') ++ t) acc
        = splitAux (s' ++ t) (c :: acc) := by
          simp only [List.cons_append, splitAux, if_neg hc]
          rfl
      _ = splitAux t (s'.reverse ++ (c :: acc)) := ih hs' (c :: acc)
      _ = splitAux t ((c :: s').reverse ++ acc) := by
          rw [List.reverse_cons, List.append_assoc]
          rfl

/-- Joining a nonempty last segment never yields the empty string. -/
theorem joinDash_ne_nil : ∀ (l : List (List Char)) (x : List Char),
    x ≠ [] → joinDash (l ++ [x]) ≠ []
  | [], x, hx => by simpa [joinDash] using hx
  | a :: l', x, hx => by
    cases l' with
    | nil => simp [joinDash]
    | cons b t => simp [joinDash]

/-- Splitting is a left inverse of joining, for separator-free segments. -/
theorem splitSeq_joinDash : ∀ segs : List (List Char), segs ≠ [] →
    (∀ seg ∈ segs, '-' ∉ seg) → splitSeq (joinDash segs) = segs
  | [], h, _ => absurd rfl h
  | [s], _, hnd => by
    have h1 : '-' ∉ s := hnd s (List.mem_cons_self _ _)
    show splitAux (joinDash [s]) [] = [s]
    rw [show joinDash [s] = s from rfl, ← List.append_nil s, splitAux_append h1]
    simp [splitAux]
  | s :: s' :: rest, _, hnd => by
    have h1 : '-' ∉ s := hnd s (List.mem_cons_self _ _)
    have hrest : ∀ seg ∈ s' :: rest, '-' ∉ seg :=
      fun seg hs => hnd seg (List.mem_cons_of_mem _ hs)
    have ih := splitSeq_joinDash (s' :: rest) (List.cons_ne_nil _ _) hrest
    simp only [splitSeq] at ih
    show splitAux (s ++ '-' :: joinDash (s' :: rest)) [] = s :: s' :: rest
    rw [splitAux_append h1]
    simp [splitAux, ih]

/-- Looking up a canonical modifier name yields its token. -/
theorem lookupMod_modName (m : ModTok) : lookupMod (modName m) = some m := by
  cases m <;> rfl

/-- No canonical modifier name contains the separator. -/
theorem modName_no_dash (m : ModTok) : '-' ∉ modName m := by
  cases m <;> decide

/-- Resolving the canonical names of a modifier list recovers the list. -/
theorem resolveMods_map (ms : List ModTok) :
    resolveMods (ms.map modName) = .ok ms := by
  induction ms with
  | nil => rfl
  | cons m rest ih => simp [resolveMods, lookupMod_modName, ih]

set_option maxRecDepth 4096 in
/-- Parsing the decimal digits of a button number recovers it. -/
theorem natDigits_roundtrip : ∀ n : Nat, n < 256 →
    parseNatChars (natDigits n) = some n := by decide

set_option maxRecDepth 4096 in
/-- Decimal digits never contain the separator. -/
theorem natDigits_no_dash : ∀ n : Nat, n < 256 → '-' ∉ natDigits n := by decide

set_option maxRecDepth 4096 in
/-- Decimal digits are never empty. -/
theorem natDigits_ne_nil : ∀ n : Nat, n < 256 → natDigits n ≠ [] := by decide

/-- A successful parse yields a button number in the valid range. -/
theorem parse_ok_range {s : String} {bs : ButtonSequence}
    (h : parse s = .ok bs) : 1 ≤ bs.button ∧ bs.button ≤ maxButton := by
  simp only [parse] at h
  split at h
  · cases h
  · split at h
    · cases h
    · split at h
      · cases h
      · split at h
        · cases h
        · split at h
          · cases h
            rename_i hrange
            exact hrange
          · cases h

/-- Re-parsing a serialized well-formed button sequence recovers it. -/
theorem parse_serialize (mods : List ModTok) (n : Nat)
    (h1 : 1 ≤ n) (h2 : n ≤ maxButton) :
    parse (serialize ⟨mods, n⟩) = .ok ⟨mods, n⟩ := by
  have hn256 : n < 256 := by
    have : maxButton = 255 := rfl
    omega
  have hsegs : splitSeq (joinDash (mods.map modName ++ [natDigits n])) =
      mods.map modName ++ [natDigits n] := by
    apply splitSeq_joinDash
    · simp
    · intro seg hseg
      rcases List.mem_append.mp hseg with hm | hl
      · obtain ⟨m, -, rfl⟩ := List.mem_map.mp hm
        exact modName_no_dash m
      · rw [List.mem_singleton.mp hl]
        exact natDigits_no_dash n hn256
  have hdata : (serialize ⟨mods, n⟩).data =
      joinDash (mods.map modName ++ [natDigits n]) := rfl
  have hne : ¬ (serialize ⟨mods, n⟩).data = [] := by
    rw [hdata]
    exact joinDash_ne_nil _ _ (natDigits_ne_nil n hn256)
  have hnd : natDigits n ≠ [] := natDigits_ne_nil n hn256
  have hne2 : ¬ joinDash (mods.map modName ++ [natDigits n]) = [] :=
    joinDash_ne_nil _ _ hnd
  simp only [parse, hdata, hne2, hsegs, List.dropLast_concat,
    resolveMods_map, List.getLastD_concat, natDigits_roundtrip n hn256,
    hnd, h1, h2, and_self, if_true, ne_eq, not_false_eq_true, if_false]

/-- C7: parsing is a bijection on well-formed inputs —
"Mod4-Control-Shift-1" parses to ({mod4, control, shift}, button 1), "5"
parses to ({}, button 5), and for every sequence that parses successfully,
serializing the parsed `ButtonSequence` and re-parsing yields the same
(modifier-set, button) pair. -/
theorem c7_parse_roundtrip :
    parse "Mod4-Control-Shift-1" = .ok ⟨[.mod4, .control, .shift], 1⟩ ∧
    parse "5" = .ok ⟨[], 5⟩ ∧
    serialize ⟨[.mod4, .control, .shift], 1⟩ = "mod4-control-shift-1" ∧
    (∀ (s : String) (bs : ButtonSequence), parse s = .ok bs →
        parse (serialize bs) = .ok bs) := by
  refine ⟨by decide, by decide, by decide, ?_⟩
  intro s bs h
  obtain ⟨h1, h2⟩ := parse_ok_range h
  obtain ⟨mods, n⟩ := bs
  exact parse_serialize mods n h1 h2

/-- Witness for C7's round-trip at a concrete input. -/
theorem c7_parse_roundtrip_witness :
    parse (serialize ⟨[ModTok.mod4, ModTok.control, ModTok.shift], 1⟩) =
      .ok ⟨[ModTok.mod4, ModTok.control, ModTok.shift], 1⟩ :=
  c7_parse_roundtrip.2.2.2 "Mod4-Control-Shift-1"
    ⟨[ModTok.mod4, ModTok.control, ModTok.shift], 1⟩ (by decide)
